import Mathlib

/-!
# `mc admin user add`: the outcome message and the command lifecycle

A shallow embedding of `cmd/admin-user-add.go`:

* `userMessage` with its two renderings, `userMessage.String` and
  `userMessage.JSON`;
* `checkAdminUserAddSyntax` and `mainAdminUserAdd`, as state-passing programs
  over a record of the console theme and the observable events.

Go strings are modelled by Lean `String`s (sequences of Unicode code points, so
only valid UTF-8 contents are covered); `[]string` is a `List String`, where the
nil slice and the empty slice are the same value (the code never tells them
apart: `strings.Join` and `omitempty` treat both alike).
-/

namespace AdminUserAdd

/-! ## Data model -/

/-- The struct `userMessage` (admin-user-add.go, lines 67-75), field by field. -/
structure userMessage where
  op : String
  Status : String
  AccessKey : String
  SecretKey : String
  PolicyName : String
  UserStatus : String
  MemberOf : List String
deriving DecidableEq, Repr

/-- The column description `Field{tag, maxLen}` passed to `newPrettyTable`; its
declaration is not part of the source file, the two positional components are
the ones written at lines 86-88. -/
structure Field where
  tag : String
  maxLen : Int
deriving DecidableEq, Repr

/-- The value built by `newPrettyTable(separator, cols...)`. -/
structure PrettyTable where
  separator : String
  cols : List Field
deriving DecidableEq, Repr

/-- The call `newPrettyTable(separator, cols...)`. -/
def newPrettyTable (separator : String) (cols : List Field) : PrettyTable :=
  { separator := separator, cols := cols }

/-- Substring test `strings.Contains(s, sub)`: `sub` occurs in `s` as a
contiguous block. -/
def Contains (s sub : String) : Prop := sub.data <:+: s.data

instance (s sub : String) : Decidable (Contains s sub) := by
  unfold Contains; infer_instance

/-! ## Structured rendering -/

/-- A value the encoder meets in `userMessage`: a string or a list of strings. -/
inductive JSONValue where
  | str (s : String)
  | arr (xs : List String)
deriving DecidableEq, Repr

/-- One exported struct field as the encoder sees it through its `json:"..."`
tag: the external key, whether the tag carries `omitempty`, and the value. -/
structure StructField where
  key : String
  omitempty : Bool
  value : JSONValue
deriving DecidableEq, Repr

/-- The exported fields of `userMessage` with their tags, in declaration order
(lines 69-74).  The field `op` is unexported and carries no tag, so it is not
among them. -/
def userMessage.structFields (u : userMessage) : List StructField :=
  [ StructField.mk "status" false (JSONValue.str u.Status),
    StructField.mk "accessKey" true (JSONValue.str u.AccessKey),
    StructField.mk "secretKey" true (JSONValue.str u.SecretKey),
    StructField.mk "policyName" true (JSONValue.str u.PolicyName),
    StructField.mk "userStatus" true (JSONValue.str u.UserStatus),
    StructField.mk "memberOf" true (JSONValue.arr u.MemberOf) ]

/-- Modelled from the spec: the emptiness test of the encoder
(`colorjson`, not in the source): "omitting any field left empty", where empty
is the empty string or a list without elements. -/
def JSONValue.isEmptyValue : JSONValue → Bool
  | JSONValue.str s => s.length == 0
  | JSONValue.arr xs => xs.isEmpty

/-- Modelled from the spec: the entries of the serialized object
(`colorjson`, not in the source): every field under its declared external
name, a field tagged `omitempty` being left out when its value is empty. -/
def emitted (fs : List StructField) : List (String × JSONValue) :=
  (fs.filter (fun f => !(f.omitempty && f.value.isEmptyValue))).map
    (fun f => (f.key, f.value))

/-- Hexadecimal digit of a number below sixteen. -/
def hexDigit (n : Nat) : Char :=
  if n < 10 then Char.ofNat (48 + n) else Char.ofNat (87 + n)

/-- Modelled from the spec: the escaping of one character inside a JSON
string literal by the encoder (`colorjson`, not in the source; the spec only
asks for a machine-readable structured-object notation, the escapes are the
ones of the JSON grammar as the Go encoder writes them). -/
def escapeChar (c : Char) : List Char :=
  if c = '"' then ['\\', '"']
  else if c = '\\' then ['\\', '\\']
  else if c = '\n' then ['\\', 'n']
  else if c = '\r' then ['\\', 'r']
  else if c = '\t' then ['\\', 't']
  else if c.toNat < 32 ∨ c = '<' ∨ c = '>' ∨ c = '&' then
    ['\\', 'u', '0', '0', hexDigit (c.toNat / 16), hexDigit (c.toNat % 16)]
  else if c.toNat = 8232 then ['\\', 'u', '2', '0', '2', '8']
  else if c.toNat = 8233 then ['\\', 'u', '2', '0', '2', '9']
  else [c]

/-- Modelled from the spec: a JSON string literal (`colorjson`, not in the
source): the escaped contents between double quotes. -/
def quote (s : String) : String :=
  "\"" ++ String.mk (s.data.flatMap escapeChar) ++ "\""

/-- Modelled from the spec: the indented text of one value (`colorjson`, not
in the source); `pre` starts every new line and `indent` is repeated once per
nesting level, a list being at level one. -/
def encodeValue (pre indent : String) : JSONValue → String
  | JSONValue.str s => quote s
  | JSONValue.arr [] => "[]"
  | JSONValue.arr (x :: xs) =>
    "[\n" ++ pre ++ indent ++ indent
      ++ String.intercalate (",\n" ++ pre ++ indent ++ indent) ((x :: xs).map quote)
      ++ "\n" ++ pre ++ indent ++ "]"

/-- Modelled from the spec: one `"key": value` member of the object
(`colorjson`, not in the source). -/
def encodeMember (pre indent : String) (kv : String × JSONValue) : String :=
  quote kv.1 ++ ": " ++ encodeValue pre indent kv.2

/-- Modelled from the spec: the indented text of an object (`colorjson`, not
in the source): one member per line, separated by commas, between braces. -/
def encodeObject (pre indent : String) : List (String × JSONValue) → String
  | [] => "\x7b\x7d"
  | kv :: kvs =>
    "\x7b\n" ++ pre ++ indent
      ++ String.intercalate (",\n" ++ pre ++ indent)
          ((kv :: kvs).map (encodeMember pre indent))
      ++ "\n" ++ pre ++ "\x7d"

/-- A Go `error` value that is not nil, identified by its message. -/
abbrev GoError := String

deriving instance DecidableEq for Except

/-- Modelled from the spec: `json.MarshalIndent(u, pre, indent)` of
`colorjson` (not in the source): the "indented structured-object notation of
the entity's fields, using each field's declared external name, omitting any
field left empty".  It returns the text or an error; strings and lists of
strings are always representable, so the error is never produced here. -/
def MarshalIndent (u : userMessage) (pre indent : String) : Except GoError String :=
  Except.ok (encodeObject pre indent (emitted u.structFields))

/-! ## Console styling -/

/-- A display attribute of the styling library, by its terminal code. -/
abbrev Attribute := Nat

/-- The attribute `color.FgGreen`: green foreground. -/
def FgGreen : Attribute := 32

/-- The value built by `color.New(attributes...)`. -/
structure Color where
  params : List Attribute
deriving DecidableEq, Repr

/-- The call `color.New(attributes...)`. -/
def Color.New (value : List Attribute) : Color := { params := value }

/-- Modelled from the spec: how a registered style presents a text (console
styling, not in the source): "consulted only to decide presentation, never
content", so the text is kept whole between the control sequence that switches
the attributes on and the one that resets them. -/
def Color.wrap (c : Color) (s : String) : String :=
  "\x1b[" ++ String.intercalate ";" (c.params.map toString) ++ "m" ++ s ++ "\x1b[0m"

/-- Modelled from the spec: `console.Colorize(tag, data)` (not in the source):
with the colour capability on and a style registered under `tag` the text is
presented in that style, otherwise it is returned as it is. -/
def Colorize (colorOn : Bool) (Theme : List (String × Color)) (tag data : String) : String :=
  if colorOn then
    match Theme.lookup tag with
    | some c => c.wrap data
    | none => data
  else data

/-! ## The process: state, outcomes and collaborators -/

/-- Modelled from the spec: a `*probe.Error` that is not nil (`probe`, not in
the source): the underlying error "annotated with the original argument list
for diagnostic context". -/
structure ProbeError where
  cause : GoError
  callInfo : List (List String)
deriving DecidableEq, Repr

/-- Modelled from the spec: `probe.NewError(e)` (not in the source): nil for a
nil error, otherwise the error wrapped without annotation. -/
def NewError (e : Option GoError) : Option ProbeError :=
  e.map (fun c => { cause := c, callInfo := [] })

/-- Modelled from the spec: the method `Trace(fields...)` of `*probe.Error`
(not in the source): nil stays nil, an error gets the fields as annotation. -/
def Trace (err : Option ProbeError) (fields : List String) : Option ProbeError :=
  err.map (fun e => { e with callInfo := e.callInfo ++ [fields] })

/-- What the process does that can be observed from outside, in order. -/
inductive Event where
  | ShowCommandHelp (command : String)
  | newAdminClient (aliasedURL : String)
  | AddUser (accessKey secretKey : String)
  | fatal (err : ProbeError) (msg : String)
  | printMsg (msg : userMessage)
  | stdout (line : String)
deriving DecidableEq, Repr

/-- The mutable part of the process: the registered styles (`console.Theme`)
and the events so far, oldest first. -/
structure State where
  Theme : List (String × Color)
  events : List Event
deriving DecidableEq, Repr

/-- How a call ends: it returns a value, or the process is terminated with an
exit status. -/
inductive Outcome (α : Type) where
  | done (val : α)
  | exited (code : Nat)
deriving DecidableEq, Repr

/-- A program: from a state to the state it leaves and how it ended. -/
def Proc (α : Type) : Type := State → State × Outcome α

/-- Return without effect. -/
def Proc.pure {α : Type} (a : α) : Proc α := fun st => (st, Outcome.done a)

/-- Sequencing: the second program runs only if the first one returned. -/
def Proc.bind {α β : Type} (m : Proc α) (f : α → Proc β) : Proc β := fun st =>
  match m st with
  | (st1, Outcome.done a) => f a st1
  | (st1, Outcome.exited code) => (st1, Outcome.exited code)

instance : Monad Proc where
  pure := Proc.pure
  bind := Proc.bind

/-- Record one event. -/
def emit (e : Event) : Proc Unit := fun st =>
  ({ st with events := st.events ++ [e] }, Outcome.done ())

/-- Terminate the process (`os.Exit(code)`). -/
def exitWith {α : Type} (code : Nat) : Proc α := fun st => (st, Outcome.exited code)

/-- The admin client: its method `AddUser(accessKey, secretKey)` returns nil or
an error. -/
structure AdminClient where
  AddUser : String → String → Option GoError

instance : Inhabited AdminClient := ⟨{ AddUser := fun _ _ => none }⟩

/-- What the command reads but does not change: the output mode
(`globalJSON`), the colour capability of the terminal, the table formatter
behind `buildRow`, and `newAdminClient(aliasedURL)`, which returns a client and
nil, or an error. -/
structure Env where
  globalJSON : Bool
  colorOn : Bool
  buildRow : PrettyTable → List String → String
  newAdminClient : String → AdminClient × Option ProbeError

/-- The call `cli.ShowCommandHelpAndExit(ctx, command, code)`: the help of the
command is shown and the process exits with `code`. -/
def ShowCommandHelpAndExit {α : Type} (command : String) (code : Nat) : Proc α := do
  emit (Event.ShowCommandHelp command)
  exitWith code

/-- Modelled from the spec: `fatalIf(err, msg)` (not in the source): nothing
happens for a nil error; otherwise the failure "is fatal for the invocation:
the process terminates with a non-zero status and an error message". -/
def fatalIf (err : Option ProbeError) (msg : String) : Proc Unit :=
  match err with
  | none => pure ()
  | some e => do
    emit (Event.fatal e msg)
    exitWith 1

/-- The call `console.SetColor(tag, cl)`: the style is registered under the
tag, replacing an earlier one. -/
def SetColor (tag : String) (cl : Color) : Proc Unit := fun st =>
  ({ st with Theme := (tag, cl) :: st.Theme.filter (fun p => p.1 ≠ tag) }, Outcome.done ())

/-- The method `Get(n)` of `cli.Args`: the n-th argument, or the empty string
when there is none. -/
def Get (args : List String) (n : Nat) : String := args.getD n ""

/-! ## The command -/

/-- The function `checkAdminUserAddSyntax` (lines 59-64). -/
def checkAdminUserAddSyntax (args : List String) : Proc Unit :=
  if args.length ≠ 3 then
    ShowCommandHelpAndExit "add" 1
  else
    pure ()

/-- The method `userMessage.JSON` (lines 110-116): the receiver is a copy, its
`Status` is overwritten, the copy is encoded, and an encoding error is fatal. -/
def userMessage.JSON (u : userMessage) : Proc String :=
  let u := { u with Status := "success" }
  match MarshalIndent u "" " " with
  | Except.error e => do
    fatalIf (NewError (some e)) "Unable to marshal into JSON."
    pure ""
  | Except.ok jsonMessageBytes => do
    fatalIf (NewError none) "Unable to marshal into JSON."
    pure jsonMessageBytes

/-! ## Text rendering

The method `String` comes after `JSON`: once it is declared, the bare name
`String` inside the namespace `userMessage` denotes the method, not the type. -/

/-- The method `userMessage.String` (lines 77-108).  `Colorize` stands for
`console.Colorize` and `buildRow` for the method `PrettyTable.buildRow`, neither
of which is defined in the source file; both are parameters.  The Go `switch`
over string constants is the chain of equality tests below. -/
def userMessage.String (Colorize : String → String → String)
    (buildRow : PrettyTable → List String → String) (u : userMessage) : String :=
  if u.op = "list" then
    let userFieldMaxLen : Int := 9
    let accessFieldMaxLen : Int := 20
    let policyFieldMaxLen : Int := 20
    buildRow
      (newPrettyTable "  "
        [Field.mk "UserStatus" userFieldMaxLen,
         Field.mk "AccessKey" accessFieldMaxLen,
         Field.mk "PolicyName" policyFieldMaxLen])
      [u.UserStatus, u.AccessKey, u.PolicyName]
  else if u.op = "info" then
    Colorize "UserMessage" (String.intercalate "\n"
      ["AccessKey: " ++ u.AccessKey,
       "Status: " ++ u.UserStatus,
       "PolicyName: " ++ u.PolicyName,
       "MemberOf: " ++ String.intercalate "," u.MemberOf])
  else if u.op = "remove" then
    Colorize "UserMessage" ("Removed user `" ++ u.AccessKey ++ "` successfully.")
  else if u.op = "disable" then
    Colorize "UserMessage" ("Disabled user `" ++ u.AccessKey ++ "` successfully.")
  else if u.op = "enable" then
    Colorize "UserMessage" ("Enabled user `" ++ u.AccessKey ++ "` successfully.")
  else if u.op = "add" then
    Colorize "UserMessage" ("Added user `" ++ u.AccessKey ++ "` successfully.")
  else
    ""

/-- Modelled from the spec: `printMsg(msg)` (the output sink, not in the
source): it "writes `renderText()` or `renderStructured()` output (chosen by
that flag) to standard output". -/
def printMsg (env : Env) (msg : userMessage) : Proc Unit := do
  emit (Event.printMsg msg)
  if env.globalJSON then do
    let s ← msg.JSON
    emit (Event.stdout s)
  else fun st =>
    emit (Event.stdout (msg.String (Colorize env.colorOn st.Theme) env.buildRow)) st

/-- The function `mainAdminUserAdd` (lines 118-142); its result is the returned
`error`, nil being `none`. -/
def mainAdminUserAdd (env : Env) (args : List String) : Proc (Option GoError) := do
  checkAdminUserAddSyntax args
  SetColor "UserMessage" (Color.New [FgGreen])
  let aliasedURL := Get args 0
  emit (Event.newAdminClient aliasedURL)
  let (client, err) := env.newAdminClient aliasedURL
  fatalIf err "Unable to initialize admin connection."
  emit (Event.AddUser (Get args 1) (Get args 2))
  fatalIf (Trace (NewError (client.AddUser (Get args 1) (Get args 2))) args) "Cannot add new user"
  printMsg env
    { op := "add"
      Status := ""
      AccessKey := Get args 1
      SecretKey := Get args 2
      PolicyName := ""
      UserStatus := "enabled"
      MemberOf := [] }
  pure none

/-- Whether an event hands a message to the output sink or writes a line to
standard output. -/
def Event.isOutput : Event → Bool
  | Event.printMsg _ => true
  | Event.stdout _ => true
  | _ => false

/-- A state with nothing registered and nothing observed yet. -/
def State.initial : State := { Theme := [], events := [] }

/-- A collaborator whose connection and `AddUser` both succeed. -/
def envOK (globalJSON colorOn : Bool) : Env :=
  { globalJSON := globalJSON
    colorOn := colorOn
    buildRow := fun _ _ => ""
    newAdminClient := fun _ => ({ AddUser := fun _ _ => none }, none) }

/-- A collaborator whose connection cannot be set up. -/
def envNoConnection (globalJSON colorOn : Bool) : Env :=
  { globalJSON := globalJSON
    colorOn := colorOn
    buildRow := fun _ _ => ""
    newAdminClient := fun _ =>
      (default, some { cause := "connection refused", callInfo := [] }) }

/-- A collaborator whose `AddUser` is rejected by the server. -/
def envAddUserFails (globalJSON colorOn : Bool) : Env :=
  { globalJSON := globalJSON
    colorOn := colorOn
    buildRow := fun _ _ => ""
    newAdminClient := fun _ =>
      ({ AddUser := fun _ _ => some "access denied" }, none) }

/-! ## The table row and the rendering calls -/

/-- A run of `n` blanks. -/
def spaces (n : Nat) : String := String.mk (List.replicate n ' ')

/-- Modelled from the spec: one cell of a "fixed-width" column (the table
formatter is not in the source): the content, cut to the width when it is
longer, then filled with blanks on the right, so that the cell takes exactly
`width` characters. -/
def fixedWidth (width : Nat) (content : String) : String :=
  String.mk (content.data.take width) ++ spaces (width - content.length)

/-- Modelled from the spec: the method `buildRow(contents...)` of `PrettyTable`
(not in the source): "one row of a fixed-width ... table", that is the
contents, each in the cell of its column with the width of that column, and
the separator between neighbouring cells; the row has a cell for every content
that has a column.  Only cells are written, no column names. -/
def PrettyTable.buildRow (t : PrettyTable) (contents : List String) : String :=
  String.intercalate t.separator
    ((t.cols.zip contents).map (fun p => fixedWidth p.1.maxLen.toNat p.2))

/-- The call `u.String()` made in a process state: the text rendering under the
styles registered at that moment; the state is read and left as it is. -/
def renderText (env : Env) (u : userMessage) : Proc String := fun st =>
  (st, Outcome.done (u.String (Colorize env.colorOn st.Theme) env.buildRow))

/-! ## Method calls and the receiver variable

A method call `x.m()` is made on a variable `x` of the caller.  What the call
may do to `x` depends on how the method declares its receiver, so the
declaration is part of the model: the body works on its receiver variable, and
the call decides whether that variable is `x` itself or a copy of it.  Both
methods of `userMessage` assign to no element of `MemberOf`; the assignment at
line 111 is the only write to the receiver in the file. -/

/-- How a method declares its receiver: `func (u userMessage) m()` receives the
value, `func (u *userMessage) m()` the address of the caller's variable. -/
inductive Receiver where
  | value
  | pointer
deriving DecidableEq, Repr

/-- A method of `userMessage`: the receiver declaration and the body.  The body
starts from the content of its receiver variable and the process state; it ends
with the content of the receiver variable at return, the state and the result. -/
structure Method (β : Type) where
  receiver : Receiver
  body : userMessage → State → userMessage × State × Outcome β

/-- The call `x.m()`: the content of the caller's variable `x` after the call,
the state and the result.  A value receiver is a copy of `x`, dropped at
return; a pointer receiver is `x` itself. -/
def Method.call {β : Type} (m : Method β) (x : userMessage) (st : State) :
    userMessage × State × Outcome β :=
  match m.receiver with
  | Receiver.value => (x, (m.body x st).2)
  | Receiver.pointer => m.body x st

/-- Lines 112-115 of `JSON`, on the current content of the receiver variable:
encode it, stop on an encoding error, return the text. -/
def encodeReceiver (u : userMessage) : Proc String :=
  match MarshalIndent u "" " " with
  | Except.error e => do
    fatalIf (NewError (some e)) "Unable to marshal into JSON."
    pure ""
  | Except.ok jsonMessageBytes => do
    fatalIf (NewError none) "Unable to marshal into JSON."
    pure jsonMessageBytes

/-- The method `func (u userMessage) String() string` (line 77): a value
receiver, and a body that reads `u` and assigns nothing. -/
def StringMethod (env : Env) : Method String :=
  { receiver := Receiver.value
    body := fun u st => (u, renderText env u st) }

/-- The method `func (u userMessage) JSON() string` (line 110): a value
receiver; line 111 assigns "success" to `u.Status`, the receiver variable, and
lines 112-115 encode that variable. -/
def JSONMethod : Method String :=
  { receiver := Receiver.value
    body := fun u st =>
      let u := { u with Status := "success" }
      (u, encodeReceiver u st) }

/-! ## Running programs: unfolding lemmas -/

theorem Proc.bind_run {α β : Type} (m : Proc α) (f : α → Proc β) (st : State) :
    (m >>= f) st = match m st with
      | (st1, Outcome.done a) => f a st1
      | (st1, Outcome.exited code) => (st1, Outcome.exited code) := rfl

theorem Proc.pure_run {α : Type} (a : α) (st : State) :
    (pure a : Proc α) st = (st, Outcome.done a) := rfl

theorem emit_run (e : Event) (st : State) :
    emit e st = ({ st with events := st.events ++ [e] }, Outcome.done ()) := rfl

theorem fatalIf_none_run (msg : String) (st : State) :
    fatalIf none msg st = (st, Outcome.done ()) := rfl

theorem fatalIf_some_run (e : ProbeError) (msg : String) (st : State) :
    fatalIf (some e) msg st
      = ({ st with events := st.events ++ [Event.fatal e msg] }, Outcome.exited 1) := rfl

theorem checkAdminUserAddSyntax_bad (args : List String) (st : State) (h : args.length ≠ 3) :
    checkAdminUserAddSyntax args st
      = ({ st with events := st.events ++ [Event.ShowCommandHelp "add"] }, Outcome.exited 1) := by
  unfold checkAdminUserAddSyntax
  rw [if_pos h]
  rfl

theorem checkAdminUserAddSyntax_good (args : List String) (st : State) (h : args.length = 3) :
    checkAdminUserAddSyntax args st = (st, Outcome.done ()) := by
  unfold checkAdminUserAddSyntax
  rw [if_neg (not_not.mpr h)]
  rfl

/-! ## The validator -/

/-- C1: `checkAdminUserAddSyntax` shows the help of `add` and exits with code 1
exactly when the argument list does not have 3 elements, and returns without
any effect exactly when it has 3, whatever the strings are. -/
theorem checkAdminUserAddSyntax_fails_iff (args : List String) (st : State) :
    (checkAdminUserAddSyntax args st
        = ({ st with events := st.events ++ [Event.ShowCommandHelp "add"] }, Outcome.exited 1)
      ↔ args.length ≠ 3)
    ∧ (checkAdminUserAddSyntax args st = (st, Outcome.done ()) ↔ args.length = 3) := by
  by_cases h : args.length = 3
  · rw [checkAdminUserAddSyntax_good args st h]
    refine ⟨⟨fun hc => ?_, fun hc => absurd h hc⟩, fun _ => h, fun _ => rfl⟩
    exact absurd (congrArg Prod.snd hc) (by simp)
  · rw [checkAdminUserAddSyntax_bad args st h]
    refine ⟨⟨fun _ => h, fun _ => rfl⟩, fun hc => ?_, fun hc => absurd hc h⟩
    exact absurd (congrArg Prod.snd hc) (by simp)

/-! ## The text rendering -/

theorem String_add_eq (Colorize : String → String → String)
    (buildRow : PrettyTable → List String → String) (u : userMessage) (h : u.op = "add") :
    u.String Colorize buildRow
      = Colorize "UserMessage" ("Added user `" ++ u.AccessKey ++ "` successfully.") := by
  simp [userMessage.String, h]

/-- C2 (as stated, refuted): the message that `mainAdminUserAdd` builds for the
arguments `myminio foobar successfully` has op "add" and the non-empty secret
key "successfully", and its text rendering, with the colour capability on or
off, contains that secret key (it is one of the fixed words of the sentence). -/
theorem String_add_may_contain_SecretKey :
    (userMessage.mk "add" "" "foobar" "successfully" "" "enabled" []).op = "add"
    ∧ (userMessage.mk "add" "" "foobar" "successfully" "" "enabled" []).SecretKey ≠ ""
    ∧ ∀ colorOn : Bool,
        Contains
          ((userMessage.mk "add" "" "foobar" "successfully" "" "enabled" []).String
            (Colorize colorOn [("UserMessage", Color.New [FgGreen])]) (fun _ _ => ""))
          (userMessage.mk "add" "" "foobar" "successfully" "" "enabled" []).SecretKey := by
  decide

/-- C2 (amended): for op "add" the text rendering is computed from the access
key alone: it is the styled sentence built from `AccessKey`, and it stays the
same string when `SecretKey` is replaced by any other value. -/
theorem String_add_ignores_SecretKey (Colorize : String → String → String)
    (buildRow : PrettyTable → List String → String) (u : userMessage) (h : u.op = "add") :
    u.String Colorize buildRow
        = Colorize "UserMessage" ("Added user `" ++ u.AccessKey ++ "` successfully.")
    ∧ ∀ secret : String,
        ({ u with SecretKey := secret }).String Colorize buildRow
          = u.String Colorize buildRow := by
  refine ⟨String_add_eq Colorize buildRow u h, fun secret => ?_⟩
  rw [String_add_eq Colorize buildRow u h]
  exact String_add_eq Colorize buildRow { u with SecretKey := secret } h

theorem String_add_ignores_SecretKey_witness :
    (userMessage.mk "add" "" "foobar" "foo12345" "" "enabled" []).op = "add"
    ∧ ((userMessage.mk "add" "" "foobar" "foo12345" "" "enabled" []).String
          (Colorize true [("UserMessage", Color.New [FgGreen])]) (fun _ _ => "")
        = Colorize true [("UserMessage", Color.New [FgGreen])] "UserMessage"
            ("Added user `" ++ "foobar" ++ "` successfully.")
      ∧ ∀ secret : String,
          ({ userMessage.mk "add" "" "foobar" "foo12345" "" "enabled" [] with
              SecretKey := secret }).String
            (Colorize true [("UserMessage", Color.New [FgGreen])]) (fun _ _ => "")
          = (userMessage.mk "add" "" "foobar" "foo12345" "" "enabled" []).String
            (Colorize true [("UserMessage", Color.New [FgGreen])]) (fun _ _ => "")) :=
  ⟨by decide,
   String_add_ignores_SecretKey (Colorize true [("UserMessage", Color.New [FgGreen])])
     (fun _ _ => "") (userMessage.mk "add" "" "foobar" "foo12345" "" "enabled" []) (by decide)⟩

/-- C8: for op "remove", "disable", "enable" and "add" the text rendering is the
"UserMessage"-styled sentence with the verb of the op (Removed, Disabled,
Enabled, Added) and the access key between backticks. -/
theorem String_confirmation (Colorize : String → String → String)
    (buildRow : PrettyTable → List String → String) (u : userMessage) :
    (u.op = "remove" → u.String Colorize buildRow
        = Colorize "UserMessage" ("Removed user `" ++ u.AccessKey ++ "` successfully."))
    ∧ (u.op = "disable" → u.String Colorize buildRow
        = Colorize "UserMessage" ("Disabled user `" ++ u.AccessKey ++ "` successfully."))
    ∧ (u.op = "enable" → u.String Colorize buildRow
        = Colorize "UserMessage" ("Enabled user `" ++ u.AccessKey ++ "` successfully."))
    ∧ (u.op = "add" → u.String Colorize buildRow
        = Colorize "UserMessage" ("Added user `" ++ u.AccessKey ++ "` successfully.")) := by
  refine ⟨fun h => ?_, fun h => ?_, fun h => ?_, fun h => ?_⟩ <;>
    simp [userMessage.String, h]

theorem String_confirmation_witness :
    ((userMessage.mk "remove" "" "foobar" "" "" "" []).op = "remove"
      ∧ (userMessage.mk "remove" "" "foobar" "" "" "" []).String (fun _ d => d) (fun _ _ => "")
        = "Removed user `foobar` successfully.")
    ∧ ((userMessage.mk "disable" "" "foobar" "" "" "" []).op = "disable"
      ∧ (userMessage.mk "disable" "" "foobar" "" "" "" []).String (fun _ d => d) (fun _ _ => "")
        = "Disabled user `foobar` successfully.")
    ∧ ((userMessage.mk "enable" "" "foobar" "" "" "" []).op = "enable"
      ∧ (userMessage.mk "enable" "" "foobar" "" "" "" []).String (fun _ d => d) (fun _ _ => "")
        = "Enabled user `foobar` successfully.")
    ∧ ((userMessage.mk "add" "" "foobar" "" "" "" []).op = "add"
      ∧ (userMessage.mk "add" "" "foobar" "" "" "" []).String (fun _ d => d) (fun _ _ => "")
        = "Added user `foobar` successfully.") :=
  ⟨⟨by decide, (String_confirmation (fun _ d => d) (fun _ _ => "")
      (userMessage.mk "remove" "" "foobar" "" "" "" [])).1 (by decide)⟩,
   ⟨by decide, (String_confirmation (fun _ d => d) (fun _ _ => "")
      (userMessage.mk "disable" "" "foobar" "" "" "" [])).2.1 (by decide)⟩,
   ⟨by decide, (String_confirmation (fun _ d => d) (fun _ _ => "")
      (userMessage.mk "enable" "" "foobar" "" "" "" [])).2.2.1 (by decide)⟩,
   ⟨by decide, (String_confirmation (fun _ d => d) (fun _ _ => "")
      (userMessage.mk "add" "" "foobar" "" "" "" [])).2.2.2 (by decide)⟩⟩

/-- C9: for op "info" the text rendering is the "UserMessage"-styled text of
four items joined by single newlines, in this order: "AccessKey: " and the
access key, "Status: " and the user status, "PolicyName: " and the policy
name, "MemberOf: " and the member names joined by "," in their order; nothing
follows the last item, and an empty `MemberOf` leaves "MemberOf: " alone. -/
theorem String_info (Colorize : String → String → String)
    (buildRow : PrettyTable → List String → String) (u : userMessage) (h : u.op = "info") :
    u.String Colorize buildRow
        = Colorize "UserMessage"
            ("AccessKey: " ++ u.AccessKey ++ "\n"
              ++ ("Status: " ++ u.UserStatus) ++ "\n"
              ++ ("PolicyName: " ++ u.PolicyName) ++ "\n"
              ++ ("MemberOf: " ++ String.intercalate "," u.MemberOf))
    ∧ (u.MemberOf = [] → u.String Colorize buildRow
        = Colorize "UserMessage"
            ("AccessKey: " ++ u.AccessKey ++ "\n"
              ++ ("Status: " ++ u.UserStatus) ++ "\n"
              ++ ("PolicyName: " ++ u.PolicyName) ++ "\n"
              ++ "MemberOf: ")) := by
  have key : u.String Colorize buildRow
        = Colorize "UserMessage"
            ("AccessKey: " ++ u.AccessKey ++ "\n"
              ++ ("Status: " ++ u.UserStatus) ++ "\n"
              ++ ("PolicyName: " ++ u.PolicyName) ++ "\n"
              ++ ("MemberOf: " ++ String.intercalate "," u.MemberOf)) := by
    simp [userMessage.String, h, String.intercalate, String.intercalate.go]
  refine ⟨key, fun hm => ?_⟩
  rw [key, hm]
  simp [String.intercalate]

theorem String_info_witness :
    (userMessage.mk "info" "" "foobar" "" "readwrite" "enabled" ["dev", "ops"]).op = "info"
    ∧ ((userMessage.mk "info" "" "foobar" "" "readwrite" "enabled" ["dev", "ops"]).String
          (fun _ d => d) (fun _ _ => "")
        = "AccessKey: " ++ "foobar" ++ "\n"
              ++ ("Status: " ++ "enabled") ++ "\n"
              ++ ("PolicyName: " ++ "readwrite") ++ "\n"
              ++ ("MemberOf: " ++ String.intercalate "," ["dev", "ops"])
      ∧ (["dev", "ops"] = ([] : List String) →
          (userMessage.mk "info" "" "foobar" "" "readwrite" "enabled" ["dev", "ops"]).String
            (fun _ d => d) (fun _ _ => "")
          = "AccessKey: " ++ "foobar" ++ "\n"
              ++ ("Status: " ++ "enabled") ++ "\n"
              ++ ("PolicyName: " ++ "readwrite") ++ "\n"
              ++ "MemberOf: ")) :=
  ⟨by decide,
   String_info (fun _ d => d) (fun _ _ => "")
     (userMessage.mk "info" "" "foobar" "" "readwrite" "enabled" ["dev", "ops"]) (by decide)⟩

/-- C10: when op is none of "list", "info", "remove", "disable", "enable",
"add", the text rendering is the empty string, whatever the other fields hold. -/
theorem String_other_op (Colorize : String → String → String)
    (buildRow : PrettyTable → List String → String) (u : userMessage)
    (h1 : u.op ≠ "list") (h2 : u.op ≠ "info") (h3 : u.op ≠ "remove")
    (h4 : u.op ≠ "disable") (h5 : u.op ≠ "enable") (h6 : u.op ≠ "add") :
    u.String Colorize buildRow = "" := by
  simp [userMessage.String, h1, h2, h3, h4, h5, h6]

theorem String_other_op_witness :
    ((userMessage.mk "Add" "success" "foobar" "foo12345" "readwrite" "enabled" ["dev"]).op ≠ "list"
      ∧ (userMessage.mk "Add" "success" "foobar" "foo12345" "readwrite" "enabled" ["dev"]).op ≠ "info"
      ∧ (userMessage.mk "Add" "success" "foobar" "foo12345" "readwrite" "enabled" ["dev"]).op ≠ "remove"
      ∧ (userMessage.mk "Add" "success" "foobar" "foo12345" "readwrite" "enabled" ["dev"]).op ≠ "disable"
      ∧ (userMessage.mk "Add" "success" "foobar" "foo12345" "readwrite" "enabled" ["dev"]).op ≠ "enable"
      ∧ (userMessage.mk "Add" "success" "foobar" "foo12345" "readwrite" "enabled" ["dev"]).op ≠ "add")
    ∧ (userMessage.mk "Add" "success" "foobar" "foo12345" "readwrite" "enabled" ["dev"]).String
        (Colorize true [("UserMessage", Color.New [FgGreen])]) (fun _ _ => "row") = ""
    ∧ (userMessage.mk "" "success" "foobar" "foo12345" "readwrite" "enabled" ["dev"]).String
        (Colorize true [("UserMessage", Color.New [FgGreen])]) (fun _ _ => "row") = "" :=
  ⟨by decide,
   String_other_op _ _ (userMessage.mk "Add" "success" "foobar" "foo12345" "readwrite" "enabled" ["dev"])
      (by decide) (by decide) (by decide) (by decide) (by decide) (by decide),
   String_other_op _ _ (userMessage.mk "" "success" "foobar" "foo12345" "readwrite" "enabled" ["dev"])
      (by decide) (by decide) (by decide) (by decide) (by decide) (by decide)⟩

/-! ## The structured rendering -/

theorem length_eq_zero_iff (s : String) : s.length = 0 ↔ s = "" := by
  cases s with
  | mk d =>
    constructor
    · intro h
      have hd : d = [] := List.length_eq_zero.mp h
      subst hd
      rfl
    · intro h
      have hd : d = [] := congrArg String.data h
      subst hd
      rfl

theorem intercalate_go_append (sep : String) (l : List String) :
    ∀ acc : String, ∃ t : String, String.intercalate.go acc sep l = acc ++ t := by
  induction l with
  | nil => intro acc; exact ⟨"", by simp [String.intercalate.go]⟩
  | cons a l ih =>
    intro acc
    obtain ⟨t, ht⟩ := ih (acc ++ sep ++ a)
    refine ⟨sep ++ a ++ t, ?_⟩
    show String.intercalate.go (acc ++ sep ++ a) sep l = acc ++ (sep ++ a ++ t)
    rw [ht]
    simp [String.append_assoc]

theorem Contains_inner (a b t c : String) : Contains (a ++ (b ++ t) ++ c) b := by
  unfold Contains
  exact ⟨a.data, (t ++ c).data, by simp⟩

theorem JSON_run (u : userMessage) (st : State) :
    u.JSON st
      = (st, Outcome.done
          (encodeObject "" " " (emitted ({ u with Status := "success" }).structFields))) := rfl

theorem emitted_status_first (u : userMessage) :
    ∃ rest, emitted ({ u with Status := "success" }).structFields
      = ("status", JSONValue.str "success") :: rest := by
  simp [emitted, userMessage.structFields, List.filter_cons]

/-- C3: whatever `u` holds, `u.JSON()` returns (without any effect) the
encoding of `u` with `Status` replaced by "success"; that text contains
`"status": "success"` verbatim, and it is the same text for every prior value
of `Status`. -/
theorem JSON_status_success (u : userMessage) (st : State) :
    ∃ text : String,
      u.JSON st = (st, Outcome.done text)
      ∧ MarshalIndent { u with Status := "success" } "" " " = Except.ok text
      ∧ Contains text "\"status\": \"success\""
      ∧ ∀ status : String, ({ u with Status := status }).JSON st = (st, Outcome.done text) := by
  refine ⟨_, JSON_run u st, rfl, ?_, fun status => JSON_run _ st⟩
  obtain ⟨rest, hrest⟩ := emitted_status_first u
  rw [hrest]
  obtain ⟨t, ht⟩ := intercalate_go_append (",\n" ++ "" ++ " ")
    (rest.map (encodeMember "" " ")) (encodeMember "" " " ("status", JSONValue.str "success"))
  have hm : encodeMember "" " " ("status", JSONValue.str "success")
      = "\"status\": \"success\"" := by decide
  show Contains
    ("\x7b\n" ++ "" ++ " "
      ++ String.intercalate.go (encodeMember "" " " ("status", JSONValue.str "success"))
          (",\n" ++ "" ++ " ") (rest.map (encodeMember "" " "))
      ++ "\n" ++ "" ++ "\x7d") "\"status\": \"success\""
  rw [ht, hm, String.append_assoc _ "\n" "", String.append_assoc _ _ "\x7d"]
  exact Contains_inner _ _ _ _

theorem mem_emitted (fs : List StructField) (k : String) (v : JSONValue) :
    (k, v) ∈ emitted fs
      ↔ ∃ f ∈ fs, (f.omitempty = false ∨ f.value.isEmptyValue = false) ∧ f.key = k ∧ f.value = v := by
  unfold emitted
  simp only [List.mem_map, List.mem_filter, Prod.mk.injEq]
  constructor
  · rintro ⟨f, ⟨hf, hk⟩, rfl, rfl⟩
    refine ⟨f, hf, ?_, rfl, rfl⟩
    cases ho : f.omitempty <;> cases he : f.value.isEmptyValue <;> simp_all
  · rintro ⟨f, hf, hk, rfl, rfl⟩
    refine ⟨f, ⟨hf, ?_⟩, rfl, rfl⟩
    cases ho : f.omitempty <;> cases he : f.value.isEmptyValue <;> simp_all

theorem isEmptyValue_str (s : String) :
    (JSONValue.str s).isEmptyValue = false ↔ s ≠ "" := by
  simp [JSONValue.isEmptyValue, length_eq_zero_iff]

theorem isEmptyValue_arr (xs : List String) :
    (JSONValue.arr xs).isEmptyValue = false ↔ xs ≠ [] := by
  cases xs <;> simp [JSONValue.isEmptyValue]

/-- C4: the object that `u.JSON()` serializes has an entry under `accessKey`,
`secretKey`, `policyName`, `userStatus`, `memberOf` exactly when the field is
non-empty, and that entry carries the field's value; no entry of the object has
the empty string as its value. -/
theorem JSON_omits_empty_fields (u : userMessage) (st : State) :
    u.JSON st
        = (st, Outcome.done
            (encodeObject "" " " (emitted ({ u with Status := "success" }).structFields)))
    ∧ (∀ v, ("accessKey", v) ∈ emitted ({ u with Status := "success" }).structFields
        ↔ (u.AccessKey ≠ "" ∧ v = JSONValue.str u.AccessKey))
    ∧ (∀ v, ("secretKey", v) ∈ emitted ({ u with Status := "success" }).structFields
        ↔ (u.SecretKey ≠ "" ∧ v = JSONValue.str u.SecretKey))
    ∧ (∀ v, ("policyName", v) ∈ emitted ({ u with Status := "success" }).structFields
        ↔ (u.PolicyName ≠ "" ∧ v = JSONValue.str u.PolicyName))
    ∧ (∀ v, ("userStatus", v) ∈ emitted ({ u with Status := "success" }).structFields
        ↔ (u.UserStatus ≠ "" ∧ v = JSONValue.str u.UserStatus))
    ∧ (∀ v, ("memberOf", v) ∈ emitted ({ u with Status := "success" }).structFields
        ↔ (u.MemberOf ≠ [] ∧ v = JSONValue.arr u.MemberOf))
    ∧ (∀ k, (k, JSONValue.str "") ∉ emitted ({ u with Status := "success" }).structFields) := by
  refine ⟨JSON_run u st, ?_, ?_, ?_, ?_, ?_, ?_⟩
  · intro v
    simp [mem_emitted, userMessage.structFields, isEmptyValue_str]
    exact fun _ => eq_comm
  · intro v
    simp [mem_emitted, userMessage.structFields, isEmptyValue_str]
    exact fun _ => eq_comm
  · intro v
    simp [mem_emitted, userMessage.structFields, isEmptyValue_str]
    exact fun _ => eq_comm
  · intro v
    simp [mem_emitted, userMessage.structFields, isEmptyValue_str]
    exact fun _ => eq_comm
  · intro v
    simp [mem_emitted, userMessage.structFields, isEmptyValue_arr]
    exact fun _ => eq_comm
  · intro k
    simp [mem_emitted, userMessage.structFields, isEmptyValue_str, isEmptyValue_arr]
    exact ⟨fun h _ => h, fun h _ => h, fun h _ => h, fun h _ => h⟩

/-! ## The command lifecycle -/

theorem mainAdminUserAdd_bad_arity (env : Env) (args : List String) (st : State)
    (h : args.length ≠ 3) :
    mainAdminUserAdd env args st
      = ({ st with events := st.events ++ [Event.ShowCommandHelp "add"] }, Outcome.exited 1) := by
  unfold mainAdminUserAdd
  rw [Proc.bind_run, checkAdminUserAddSyntax_bad args st h]

theorem mainAdminUserAdd_no_connection (env : Env) (args : List String) (st : State)
    (h : args.length = 3) (e : ProbeError) (he : (env.newAdminClient (Get args 0)).2 = some e) :
    mainAdminUserAdd env args st
      = ({ Theme := ("UserMessage", Color.New [FgGreen])
              :: st.Theme.filter (fun p => p.1 ≠ "UserMessage"),
           events := st.events ++ [Event.newAdminClient (Get args 0),
              Event.fatal e "Unable to initialize admin connection."] },
         Outcome.exited 1) := by
  unfold mainAdminUserAdd
  rw [Proc.bind_run, checkAdminUserAddSyntax_good args st h]
  simp [Proc.bind_run, SetColor, emit_run, he, fatalIf_some_run]

theorem mainAdminUserAdd_AddUser_fails (env : Env) (args : List String) (st : State)
    (h : args.length = 3) (hc : (env.newAdminClient (Get args 0)).2 = none) (g : GoError)
    (hg : (env.newAdminClient (Get args 0)).1.AddUser (Get args 1) (Get args 2) = some g) :
    mainAdminUserAdd env args st
      = ({ Theme := ("UserMessage", Color.New [FgGreen])
              :: st.Theme.filter (fun p => p.1 ≠ "UserMessage"),
           events := st.events ++ [Event.newAdminClient (Get args 0),
              Event.AddUser (Get args 1) (Get args 2),
              Event.fatal { cause := g, callInfo := [args] } "Cannot add new user"] },
         Outcome.exited 1) := by
  unfold mainAdminUserAdd
  rw [Proc.bind_run, checkAdminUserAddSyntax_good args st h]
  simp [Proc.bind_run, SetColor, emit_run, hc, hg, fatalIf_none_run, fatalIf_some_run,
    NewError, Trace]

theorem mainAdminUserAdd_success (env : Env) (args : List String) (st : State)
    (h : args.length = 3) (hc : (env.newAdminClient (Get args 0)).2 = none)
    (hg : (env.newAdminClient (Get args 0)).1.AddUser (Get args 1) (Get args 2) = none) :
    mainAdminUserAdd env args st
      = ({ Theme := ("UserMessage", Color.New [FgGreen])
              :: st.Theme.filter (fun p => p.1 ≠ "UserMessage"),
           events := st.events ++ [Event.newAdminClient (Get args 0),
              Event.AddUser (Get args 1) (Get args 2),
              Event.printMsg (userMessage.mk "add" "" (Get args 1) (Get args 2) "" "enabled" []),
              Event.stdout
                (if env.globalJSON then
                  encodeObject "" " "
                    (emitted (userMessage.mk "add" "success" (Get args 1) (Get args 2) ""
                      "enabled" []).structFields)
                else
                  (userMessage.mk "add" "" (Get args 1) (Get args 2) "" "enabled" []).String
                    (Colorize env.colorOn (("UserMessage", Color.New [FgGreen])
                      :: st.Theme.filter (fun p => p.1 ≠ "UserMessage")))
                    env.buildRow)] },
         Outcome.done none) := by
  unfold mainAdminUserAdd
  rw [Proc.bind_run, checkAdminUserAddSyntax_good args st h]
  cases hj : env.globalJSON <;>
    simp [Proc.bind_run, SetColor, emit_run, hc, hg, fatalIf_none_run, NewError, Trace,
      printMsg, hj, JSON_run] <;>
    rfl

set_option maxRecDepth 100000 in
/-- C5: for a 3-element argument list `[target, accessKey, secretKey]` whose
connection and `AddUser` succeed, `mainAdminUserAdd` asks for the client of
`target`, calls `AddUser accessKey secretKey` once, hands
`userMessage{op: "add", AccessKey, SecretKey, UserStatus: "enabled"}` (other
fields empty) to the output sink, which writes its rendering, and returns nil.
For `myminio foobar foo12345` the text rendering is the styled sentence
``Added user `foobar` successfully.`` and does not contain `foo12345`; the
structured rendering contains `"accessKey": "foobar"`, `"userStatus": "enabled"`,
`"status": "success"` and `"secretKey": "foo12345"`. -/
theorem mainAdminUserAdd_reports_added_user :
    (∀ (env : Env) (target accessKey secretKey : String) (st : State),
      (env.newAdminClient target).2 = none →
      (env.newAdminClient target).1.AddUser accessKey secretKey = none →
      mainAdminUserAdd env [target, accessKey, secretKey] st
        = ({ Theme := ("UserMessage", Color.New [FgGreen])
                :: st.Theme.filter (fun p => p.1 ≠ "UserMessage"),
             events := st.events ++ [Event.newAdminClient target,
                Event.AddUser accessKey secretKey,
                Event.printMsg (userMessage.mk "add" "" accessKey secretKey "" "enabled" []),
                Event.stdout
                  (if env.globalJSON then
                    encodeObject "" " "
                      (emitted (userMessage.mk "add" "success" accessKey secretKey ""
                        "enabled" []).structFields)
                  else
                    (userMessage.mk "add" "" accessKey secretKey "" "enabled" []).String
                      (Colorize env.colorOn (("UserMessage", Color.New [FgGreen])
                        :: st.Theme.filter (fun p => p.1 ≠ "UserMessage")))
                      env.buildRow)] },
           Outcome.done none))
    ∧ (∀ colorOn : Bool, ∃ line : String,
        mainAdminUserAdd (envOK false colorOn) ["myminio", "foobar", "foo12345"] State.initial
          = ({ Theme := [("UserMessage", Color.New [FgGreen])],
               events := [Event.newAdminClient "myminio", Event.AddUser "foobar" "foo12345",
                 Event.printMsg (userMessage.mk "add" "" "foobar" "foo12345" "" "enabled" []),
                 Event.stdout line] },
             Outcome.done none)
        ∧ line = Colorize colorOn [("UserMessage", Color.New [FgGreen])] "UserMessage"
            "Added user `foobar` successfully."
        ∧ Contains line "Added user `foobar` successfully."
        ∧ ¬ Contains line "foo12345")
    ∧ (∀ colorOn : Bool, ∃ text : String,
        mainAdminUserAdd (envOK true colorOn) ["myminio", "foobar", "foo12345"] State.initial
          = ({ Theme := [("UserMessage", Color.New [FgGreen])],
               events := [Event.newAdminClient "myminio", Event.AddUser "foobar" "foo12345",
                 Event.printMsg (userMessage.mk "add" "" "foobar" "foo12345" "" "enabled" []),
                 Event.stdout text] },
             Outcome.done none)
        ∧ Contains text "\"accessKey\": \"foobar\""
        ∧ Contains text "\"userStatus\": \"enabled\""
        ∧ Contains text "\"status\": \"success\""
        ∧ Contains text "\"secretKey\": \"foo12345\"") := by
  refine ⟨fun env target accessKey secretKey st hc hg => ?_, fun colorOn => ?_, fun colorOn => ?_⟩
  · exact mainAdminUserAdd_success env [target, accessKey, secretKey] st rfl hc hg
  · refine ⟨Colorize colorOn [("UserMessage", Color.New [FgGreen])] "UserMessage"
        "Added user `foobar` successfully.", ?_, rfl, ?_, ?_⟩ <;>
      cases colorOn <;> decide
  · refine ⟨"\x7b\n \"status\": \"success\",\n \"accessKey\": \"foobar\",\n \"secretKey\": \"foo12345\",\n \"userStatus\": \"enabled\"\n\x7d", ?_, ?_, ?_, ?_, ?_⟩
    · cases colorOn <;> decide
    · decide
    · decide
    · decide
    · decide

theorem mainAdminUserAdd_reports_added_user_witness :
    ((envOK true true).newAdminClient "myminio").2 = none
    ∧ ((envOK true true).newAdminClient "myminio").1.AddUser "foobar" "foo12345" = none
    ∧ mainAdminUserAdd (envOK true true) ["myminio", "foobar", "foo12345"] State.initial
        = ({ Theme := ("UserMessage", Color.New [FgGreen])
                :: State.initial.Theme.filter (fun p => p.1 ≠ "UserMessage"),
             events := State.initial.events ++ [Event.newAdminClient "myminio",
                Event.AddUser "foobar" "foo12345",
                Event.printMsg (userMessage.mk "add" "" "foobar" "foo12345" "" "enabled" []),
                Event.stdout
                  (if (envOK true true).globalJSON then
                    encodeObject "" " "
                      (emitted (userMessage.mk "add" "success" "foobar" "foo12345" ""
                        "enabled" []).structFields)
                  else
                    (userMessage.mk "add" "" "foobar" "foo12345" "" "enabled" []).String
                      (Colorize (envOK true true).colorOn (("UserMessage", Color.New [FgGreen])
                        :: State.initial.Theme.filter (fun p => p.1 ≠ "UserMessage")))
                      (envOK true true).buildRow)] },
           Outcome.done none) :=
  ⟨rfl, rfl,
   mainAdminUserAdd_reports_added_user.1 (envOK true true) "myminio" "foobar" "foo12345"
     State.initial rfl rfl⟩

/-- C6: for an argument list whose length is not 3, `mainAdminUserAdd` ends
where `checkAdminUserAddSyntax` ends: the help of `add` is shown and the
process exits with code 1; nothing else has happened (no style registered, no
client asked for, no `AddUser`, nothing handed to the output sink). -/
theorem mainAdminUserAdd_wrong_count_exits (env : Env) (args : List String) (st : State)
    (h : args.length ≠ 3) :
    mainAdminUserAdd env args st
        = ({ Theme := st.Theme, events := st.events ++ [Event.ShowCommandHelp "add"] },
           Outcome.exited 1)
    ∧ mainAdminUserAdd env args st
        = ((checkAdminUserAddSyntax args st).1, Outcome.exited 1)
    ∧ ∀ e ∈ (mainAdminUserAdd env args st).1.events.drop st.events.length,
        (∀ url, e ≠ Event.newAdminClient url) ∧ (∀ a s, e ≠ Event.AddUser a s)
          ∧ e.isOutput = false := by
  have hrun := mainAdminUserAdd_bad_arity env args st h
  refine ⟨hrun, ?_, ?_⟩
  · rw [hrun, checkAdminUserAddSyntax_bad args st h]
  · rw [hrun]
    simp [Event.isOutput]

theorem mainAdminUserAdd_wrong_count_exits_witness :
    ["myminio", "foobar"].length ≠ 3
    ∧ mainAdminUserAdd (envOK false true) ["myminio", "foobar"] State.initial
        = ({ Theme := State.initial.Theme,
             events := State.initial.events ++ [Event.ShowCommandHelp "add"] },
           Outcome.exited 1) :=
  ⟨by decide,
   (mainAdminUserAdd_wrong_count_exits (envOK false true) ["myminio", "foobar"] State.initial
     (by decide)).1⟩

/-- C7: for a 3-element argument list, when the client cannot be obtained or
`AddUser` returns an error, `mainAdminUserAdd` terminates the process with a
non-zero status and nothing is handed to the output sink or written to standard
output; conversely, whenever a run hands a message to the sink or writes a
line, the client was obtained, `AddUser` returned nil and the run returned nil. -/
theorem mainAdminUserAdd_error_is_terminal (env : Env) (args : List String) (st : State)
    (h : args.length = 3) :
    (((env.newAdminClient (Get args 0)).2 ≠ none
        ∨ (env.newAdminClient (Get args 0)).1.AddUser (Get args 1) (Get args 2) ≠ none) →
      ∃ code evs, code ≠ 0
        ∧ (mainAdminUserAdd env args st).2 = Outcome.exited code
        ∧ (mainAdminUserAdd env args st).1.events = st.events ++ evs
        ∧ ∀ e ∈ evs, e.isOutput = false)
    ∧ ((∃ e ∈ (mainAdminUserAdd env args st).1.events.drop st.events.length,
          e.isOutput = true) →
      (env.newAdminClient (Get args 0)).2 = none
        ∧ (env.newAdminClient (Get args 0)).1.AddUser (Get args 1) (Get args 2) = none
        ∧ (mainAdminUserAdd env args st).2 = Outcome.done none) := by
  cases hc : (env.newAdminClient (Get args 0)).2 with
  | some e =>
    have hrun := mainAdminUserAdd_no_connection env args st h e hc
    refine ⟨fun _ => ⟨1, _, by decide, by rw [hrun], by rw [hrun], ?_⟩, ?_⟩
    · simp [Event.isOutput]
    · rw [hrun]
      simp [Event.isOutput]
  | none =>
    cases hg : (env.newAdminClient (Get args 0)).1.AddUser (Get args 1) (Get args 2) with
    | some g =>
      have hrun := mainAdminUserAdd_AddUser_fails env args st h hc g hg
      refine ⟨fun _ => ⟨1, _, by decide, by rw [hrun], by rw [hrun], ?_⟩, ?_⟩
      · simp [Event.isOutput]
      · rw [hrun]
        simp [Event.isOutput]
    | none =>
      have hrun := mainAdminUserAdd_success env args st h hc hg
      refine ⟨fun hor => ?_, fun _ => ⟨rfl, rfl, by rw [hrun]⟩⟩
      rcases hor with hne | hne <;> exact absurd rfl hne

theorem mainAdminUserAdd_error_is_terminal_witness :
    (["myminio", "foobar", "foo12345"].length = 3
      ∧ (((envNoConnection false true).newAdminClient
            (Get ["myminio", "foobar", "foo12345"] 0)).2 ≠ none
          ∨ ((envNoConnection false true).newAdminClient
              (Get ["myminio", "foobar", "foo12345"] 0)).1.AddUser
                (Get ["myminio", "foobar", "foo12345"] 1)
                (Get ["myminio", "foobar", "foo12345"] 2) ≠ none)
      ∧ ∃ code evs, code ≠ 0
        ∧ (mainAdminUserAdd (envNoConnection false true) ["myminio", "foobar", "foo12345"]
            State.initial).2 = Outcome.exited code
        ∧ (mainAdminUserAdd (envNoConnection false true) ["myminio", "foobar", "foo12345"]
            State.initial).1.events = State.initial.events ++ evs
        ∧ ∀ e ∈ evs, e.isOutput = false)
    ∧ ((((envAddUserFails true true).newAdminClient
            (Get ["myminio", "foobar", "foo12345"] 0)).2 ≠ none
          ∨ ((envAddUserFails true true).newAdminClient
              (Get ["myminio", "foobar", "foo12345"] 0)).1.AddUser
                (Get ["myminio", "foobar", "foo12345"] 1)
                (Get ["myminio", "foobar", "foo12345"] 2) ≠ none)
      ∧ ∃ code evs, code ≠ 0
        ∧ (mainAdminUserAdd (envAddUserFails true true) ["myminio", "foobar", "foo12345"]
            State.initial).2 = Outcome.exited code
        ∧ (mainAdminUserAdd (envAddUserFails true true) ["myminio", "foobar", "foo12345"]
            State.initial).1.events = State.initial.events ++ evs
        ∧ ∀ e ∈ evs, e.isOutput = false) :=
  ⟨⟨by decide, Or.inl (by decide),
    (mainAdminUserAdd_error_is_terminal (envNoConnection false true)
      ["myminio", "foobar", "foo12345"] State.initial (by decide)).1 (Or.inl (by decide))⟩,
   ⟨Or.inr (by decide),
    (mainAdminUserAdd_error_is_terminal (envAddUserFails true true)
      ["myminio", "foobar", "foo12345"] State.initial (by decide)).1 (Or.inr (by decide))⟩⟩

/-! ## The table row of `list` -/

theorem fixedWidth_length (width : Nat) (content : String) :
    (fixedWidth width content).length = width := by
  unfold fixedWidth spaces
  rw [String.length_append]
  show (content.data.take width).length + (List.replicate (width - content.length) ' ').length
    = width
  rw [List.length_take, List.length_replicate]
  show min width content.data.length + (width - content.data.length) = width
  omega

theorem fixedWidth_of_fits (width : Nat) (content : String) (h : content.length ≤ width) :
    fixedWidth width content = content ++ spaces (width - content.length) := by
  unfold fixedWidth
  rw [List.take_of_length_le h]

theorem String_list_eq (Colorize : String → String → String)
    (buildRow : PrettyTable → List String → String) (u : userMessage) (h : u.op = "list") :
    u.String Colorize buildRow
      = buildRow
          (newPrettyTable "  "
            [Field.mk "UserStatus" 9, Field.mk "AccessKey" 20, Field.mk "PolicyName" 20])
          [u.UserStatus, u.AccessKey, u.PolicyName] := by
  simp [userMessage.String, h]

theorem buildRow_three (sep : String) (f1 f2 f3 : Field) (c1 c2 c3 : String) :
    (newPrettyTable sep [f1, f2, f3]).buildRow [c1, c2, c3]
      = fixedWidth f1.maxLen.toNat c1 ++ sep ++ fixedWidth f2.maxLen.toNat c2 ++ sep
          ++ fixedWidth f3.maxLen.toNat c3 := by
  simp [PrettyTable.buildRow, newPrettyTable, String.intercalate, String.intercalate.go]

/-- C11: for op "list" the text rendering is the result of one `buildRow` call
on the table made with the string of two blanks and the columns of widths 9,
20 and 20, given the cells `UserStatus`, `AccessKey`, `PolicyName` in this
order.  With the row formatter of the table it is the three cells, each of its
column's width, with two blanks between neighbours and nothing else (no
header): 53 characters in all, and when every content fits its column the
contents themselves followed by the blanks that fill their cells. -/
theorem String_list (Colorize : String → String → String)
    (buildRow : PrettyTable → List String → String) (u : userMessage) (h : u.op = "list") :
    u.String Colorize buildRow
        = buildRow
            (newPrettyTable "  "
              [Field.mk "UserStatus" 9, Field.mk "AccessKey" 20, Field.mk "PolicyName" 20])
            [u.UserStatus, u.AccessKey, u.PolicyName]
    ∧ u.String Colorize PrettyTable.buildRow
        = fixedWidth 9 u.UserStatus ++ "  " ++ fixedWidth 20 u.AccessKey ++ "  "
            ++ fixedWidth 20 u.PolicyName
    ∧ (u.String Colorize PrettyTable.buildRow).length = 53
    ∧ (u.UserStatus.length ≤ 9 → u.AccessKey.length ≤ 20 → u.PolicyName.length ≤ 20 →
        u.String Colorize PrettyTable.buildRow
          = u.UserStatus ++ spaces (9 - u.UserStatus.length) ++ "  "
              ++ (u.AccessKey ++ spaces (20 - u.AccessKey.length)) ++ "  "
              ++ (u.PolicyName ++ spaces (20 - u.PolicyName.length))) := by
  have hrow : u.String Colorize PrettyTable.buildRow
      = fixedWidth 9 u.UserStatus ++ "  " ++ fixedWidth 20 u.AccessKey ++ "  "
          ++ fixedWidth 20 u.PolicyName := by
    rw [String_list_eq Colorize PrettyTable.buildRow u h, buildRow_three]
    rfl
  refine ⟨String_list_eq Colorize buildRow u h, hrow, ?_, fun h1 h2 h3 => ?_⟩
  · rw [hrow]
    simp only [String.length_append, fixedWidth_length]
    rfl
  · rw [hrow, fixedWidth_of_fits 9 _ h1, fixedWidth_of_fits 20 _ h2, fixedWidth_of_fits 20 _ h3]

theorem String_list_witness :
    (userMessage.mk "list" "" "foobar" "foo12345" "readwrite" "enabled" []).op = "list"
    ∧ (userMessage.mk "list" "" "foobar" "foo12345" "readwrite" "enabled" []).UserStatus.length ≤ 9
    ∧ (userMessage.mk "list" "" "foobar" "foo12345" "readwrite" "enabled" []).AccessKey.length ≤ 20
    ∧ (userMessage.mk "list" "" "foobar" "foo12345" "readwrite" "enabled" []).PolicyName.length ≤ 20
    ∧ (userMessage.mk "list" "" "foobar" "foo12345" "readwrite" "enabled" []).String
          (Colorize true [("UserMessage", Color.New [FgGreen])]) PrettyTable.buildRow
        = "enabled    foobar                readwrite           " :=
  ⟨by decide, by decide, by decide, by decide,
   ((String_list (Colorize true [("UserMessage", Color.New [FgGreen])]) PrettyTable.buildRow
      (userMessage.mk "list" "" "foobar" "foo12345" "readwrite" "enabled" [])
      (by decide)).2.2.2 (by decide) (by decide) (by decide)).trans (by decide)⟩

/-! ## Repeated rendering, and what the renderings depend on -/

theorem renderText_run (env : Env) (u : userMessage) (st : State) :
    renderText env u st
      = (st, Outcome.done (u.String (Colorize env.colorOn st.Theme) env.buildRow)) := rfl

theorem encodeReceiver_run (u : userMessage) (st : State) :
    encodeReceiver u st
      = (st, Outcome.done (encodeObject "" " " (emitted u.structFields))) := rfl

theorem JSONMethod_body_result (u : userMessage) (st : State) :
    (JSONMethod.body u st).2 = u.JSON st := rfl

theorem StringMethod_call (env : Env) (u : userMessage) (st : State) :
    (StringMethod env).call u st
      = (u, st, Outcome.done (u.String (Colorize env.colorOn st.Theme) env.buildRow)) := rfl

theorem JSONMethod_call (u : userMessage) (st : State) :
    JSONMethod.call u st
      = (u, st, Outcome.done
          (encodeObject "" " " (emitted ({ u with Status := "success" }).structFields))) := rfl

/-- Had `JSON` been declared on `*userMessage`, the same body would leave
"success" in the caller's `Status`: the receiver declaration is what keeps the
caller's message as it was. -/
theorem JSON_pointer_receiver_overwrites :
    (({ JSONMethod with receiver := Receiver.pointer } : Method String).call
        (userMessage.mk "add" "" "foobar" "foo12345" "" "enabled" []) State.initial).1
      = userMessage.mk "add" "success" "foobar" "foo12345" "" "enabled" [] := by
  decide

/-- C12: a call `u.String()` or `u.JSON()` returns a string and leaves both the
caller's `u` and the process state (registered styles, events) as they were.
Inside `JSON()` the receiver variable does get `Status` "success", but it is a
copy, so the caller's `u.Status` keeps its value.  Hence a second call of
either method, made on what the first call left, returns the same string, and
a `String()` or `JSON()` call made after a `JSON()` or `String()` call returns
what it returns without it. -/
theorem rendering_repeatable (env : Env) (u : userMessage) (st : State) :
    ∃ text json : String,
      (StringMethod env).call u st = (u, st, Outcome.done text)
      ∧ JSONMethod.call u st = (u, st, Outcome.done json)
      ∧ text = u.String (Colorize env.colorOn st.Theme) env.buildRow
      ∧ u.JSON st = (st, Outcome.done json)
      ∧ (JSONMethod.body u st).1 = { u with Status := "success" }
      ∧ (JSONMethod.body u st).1.Status = "success"
      ∧ (JSONMethod.call u st).1.Status = u.Status
      ∧ (StringMethod env).call ((StringMethod env).call u st).1
            ((StringMethod env).call u st).2.1
          = (StringMethod env).call u st
      ∧ JSONMethod.call (JSONMethod.call u st).1 (JSONMethod.call u st).2.1
          = JSONMethod.call u st
      ∧ (StringMethod env).call (JSONMethod.call u st).1 (JSONMethod.call u st).2.1
          = (StringMethod env).call u st
      ∧ JSONMethod.call ((StringMethod env).call u st).1 ((StringMethod env).call u st).2.1
          = JSONMethod.call u st := by
  refine ⟨_, _, StringMethod_call env u st, JSONMethod_call u st, rfl, JSON_run u st,
    rfl, rfl, ?_, ?_, ?_, ?_, ?_⟩
  · simp only [JSONMethod_call]
  · simp only [StringMethod_call]
  · simp only [JSONMethod_call]
  · simp only [JSONMethod_call, StringMethod_call]
  · simp only [JSONMethod_call, StringMethod_call]

/-- C13: the text rendering reads neither `SecretKey` nor `Status`: two
messages that agree on op, `AccessKey`, `UserStatus`, `PolicyName` and
`MemberOf` have the same text rendering; and when the op is "add", "remove",
"enable" or "disable", two messages that agree on op and `AccessKey` alone
already have the same text rendering. -/
theorem String_noninterference (Colorize : String → String → String)
    (buildRow : PrettyTable → List String → String) (u v : userMessage)
    (hop : u.op = v.op) (hak : u.AccessKey = v.AccessKey) :
    (u.UserStatus = v.UserStatus → u.PolicyName = v.PolicyName → u.MemberOf = v.MemberOf →
        u.String Colorize buildRow = v.String Colorize buildRow)
    ∧ (u.op = "add" ∨ u.op = "remove" ∨ u.op = "enable" ∨ u.op = "disable" →
        u.String Colorize buildRow = v.String Colorize buildRow) := by
  refine ⟨fun hus hpn hmo => ?_, fun hk => ?_⟩
  · simp only [userMessage.String, ← hop, ← hak, ← hus, ← hpn, ← hmo]
  · rcases hk with h | h | h | h <;>
      simp [userMessage.String, ← hop, ← hak, h]

theorem String_noninterference_witness :
    (userMessage.mk "info" "" "foobar" "foo12345" "readwrite" "enabled" ["dev"]).op
        = (userMessage.mk "info" "success" "foobar" "" "readwrite" "enabled" ["dev"]).op
    ∧ (userMessage.mk "info" "" "foobar" "foo12345" "readwrite" "enabled" ["dev"]).AccessKey
        = (userMessage.mk "info" "success" "foobar" "" "readwrite" "enabled" ["dev"]).AccessKey
    ∧ (userMessage.mk "info" "" "foobar" "foo12345" "readwrite" "enabled" ["dev"]).String
          (Colorize true [("UserMessage", Color.New [FgGreen])]) PrettyTable.buildRow
        = (userMessage.mk "info" "success" "foobar" "" "readwrite" "enabled" ["dev"]).String
          (Colorize true [("UserMessage", Color.New [FgGreen])]) PrettyTable.buildRow
    ∧ (userMessage.mk "add" "" "foobar" "foo12345" "" "enabled" []).op
        = (userMessage.mk "add" "failed" "foobar" "other" "readwrite" "disabled" ["dev"]).op
    ∧ (userMessage.mk "add" "" "foobar" "foo12345" "" "enabled" []).AccessKey
        = (userMessage.mk "add" "failed" "foobar" "other" "readwrite" "disabled" ["dev"]).AccessKey
    ∧ ((userMessage.mk "add" "" "foobar" "foo12345" "" "enabled" []).op = "add"
        ∨ (userMessage.mk "add" "" "foobar" "foo12345" "" "enabled" []).op = "remove"
        ∨ (userMessage.mk "add" "" "foobar" "foo12345" "" "enabled" []).op = "enable"
        ∨ (userMessage.mk "add" "" "foobar" "foo12345" "" "enabled" []).op = "disable")
    ∧ (userMessage.mk "add" "" "foobar" "foo12345" "" "enabled" []).String
          (Colorize true [("UserMessage", Color.New [FgGreen])]) PrettyTable.buildRow
        = (userMessage.mk "add" "failed" "foobar" "other" "readwrite" "disabled" ["dev"]).String
          (Colorize true [("UserMessage", Color.New [FgGreen])]) PrettyTable.buildRow :=
  ⟨rfl, rfl,
   (String_noninterference (Colorize true [("UserMessage", Color.New [FgGreen])])
      PrettyTable.buildRow
      (userMessage.mk "info" "" "foobar" "foo12345" "readwrite" "enabled" ["dev"])
      (userMessage.mk "info" "success" "foobar" "" "readwrite" "enabled" ["dev"])
      rfl rfl).1 rfl rfl rfl,
   rfl, rfl, Or.inl rfl,
   (String_noninterference (Colorize true [("UserMessage", Color.New [FgGreen])])
      PrettyTable.buildRow
      (userMessage.mk "add" "" "foobar" "foo12345" "" "enabled" [])
      (userMessage.mk "add" "failed" "foobar" "other" "readwrite" "disabled" ["dev"])
      rfl rfl).2 (Or.inl rfl)⟩

theorem emitted_keys_sublist (fs : List StructField) :
    ((emitted fs).map Prod.fst).Sublist (fs.map StructField.key) := by
  unfold emitted
  rw [List.map_map]
  exact (List.filter_sublist fs).map _

/-- C14: the op is not serialized: `JSON()` returns the same string whatever op
is put in place of `u.op`; the keys of the serialized object, in the order in
which they are written, are picked in order from status, accessKey, secretKey,
policyName, userStatus, memberOf, and the first of them is status. -/
theorem JSON_ignores_op (u : userMessage) (st : State) :
    (∀ op : String, ({ u with op := op }).JSON st = u.JSON st)
    ∧ u.JSON st
        = (st, Outcome.done
            (encodeObject "" " " (emitted ({ u with Status := "success" }).structFields)))
    ∧ ((emitted ({ u with Status := "success" }).structFields).map Prod.fst).Sublist
        ["status", "accessKey", "secretKey", "policyName", "userStatus", "memberOf"]
    ∧ ((emitted ({ u with Status := "success" }).structFields).map Prod.fst).head? = some "status"
    ∧ ((emitted ({ u with Status := "success" }).structFields).map Prod.fst).Nodup := by
  have hsub := emitted_keys_sublist ({ u with Status := "success" }).structFields
  have hkeys : (({ u with Status := "success" }).structFields.map StructField.key)
      = ["status", "accessKey", "secretKey", "policyName", "userStatus", "memberOf"] := rfl
  rw [hkeys] at hsub
  refine ⟨fun op => ?_, JSON_run u st, hsub, ?_, hsub.nodup (by decide)⟩
  · rw [JSON_run, JSON_run]
    rfl
  · obtain ⟨rest, hrest⟩ := emitted_status_first u
    rw [hrest]
    rfl

end AdminUserAdd
